import Mathlib

/-!
Verification of the pH-diagram speciation core (`src/ph_diagram.py`).

The source computes, for a polyprotic acid given by a list of pKa values and a
total analytical concentration, the fractional distribution `alpha` of each
protonation state over a fixed pH grid, the corresponding log-concentrations,
and symbolic species labels.  Floating-point arithmetic is modelled by exact
real arithmetic; the vectorized numpy operations over the grid are modelled
pointwise as functions of the pH value, quantified over the grid.
-/

/-- The module-level pH grid: `np.arange(0, 14.1, 0.1)`, the 141 values
`0.0, 0.1, ..., 14.0`. -/
noncomputable def pH_grid : List ℝ :=
  (List.range 141).map (fun i => (i : ℝ) / 10)

/-- The module-level hydronium concentration `10**(-pH)`, as a pointwise
function of the pH value. -/
noncomputable def hydronium_concentration (x : ℝ) : ℝ :=
  (10 : ℝ) ^ (-x)

/-- The `Acid` class: stores the pKa values (as reals) and the total acid
concentration `Ca`.  `Ka` is derived, mirroring `self.Ka = 10**(-self.pKa)`. -/
structure Acid where
  pKa : List ℝ
  Ca : ℝ

/-- Dissociation constants `Ka = 10**(-pKa)`, elementwise over the pKa list. -/
noncomputable def Acid.Ka (a : Acid) : List ℝ :=
  a.pKa.map (fun p => (10 : ℝ) ^ (-p))

/-- One unnormalized numerator of the `alpha` property:
`reduce(mul, self.Ka[0:i], hydronium_concentration**(self.pKa.size - i))`,
i.e. a left fold of multiplication over the first `i` dissociation constants
with initial value `hydronium_concentration ^ (n - i)`, at pH value `x`. -/
noncomputable def Acid.numerator (a : Acid) (i : ℕ) (x : ℝ) : ℝ :=
  (a.Ka.take i).foldl (· * ·) (hydronium_concentration x ^ (a.pKa.length - i))

/-- The list `numerators` built by the loop `for i in range(0, self.pKa.size + 1)`
in the `alpha` property, at pH value `x`. -/
noncomputable def Acid.numeratorList (a : Acid) (x : ℝ) : List ℝ :=
  (List.range (a.pKa.length + 1)).map (fun i => a.numerator i x)

/-- The `alpha` property:
`alphas = [numerator/sum(numerators) for numerator in numerators]`,
at pH value `x`. -/
noncomputable def Acid.alpha (a : Acid) (x : ℝ) : List ℝ :=
  (a.numeratorList x).map (fun num => num / (a.numeratorList x).sum)

/-- The `log_concentrations` property:
`[np.log10(alpha * self.Ca) for alpha in self.alpha]`, at pH value `x`. -/
noncomputable def Acid.log_concentrations (a : Acid) (x : ℝ) : List ℝ :=
  (a.alpha x).map (fun al => Real.logb 10 (al * a.Ca))

/-- A left fold of multiplication is the initial value times the product. -/
lemma foldl_mul_eq_prod (l : List ℝ) (init : ℝ) :
    l.foldl (· * ·) init = init * l.prod := by
  induction l generalizing init with
  | nil => simp
  | cons a t ih =>
    rw [List.foldl_cons, ih, List.prod_cons]
    ring

lemma hydronium_pos (x : ℝ) : 0 < hydronium_concentration x := by
  unfold hydronium_concentration
  exact Real.rpow_pos_of_pos (by norm_num) _

lemma Ka_mem_pos (a : Acid) : ∀ k ∈ a.Ka, 0 < k := by
  intro k hk
  simp only [Acid.Ka, List.mem_map] at hk
  obtain ⟨p, _, rfl⟩ := hk
  exact Real.rpow_pos_of_pos (by norm_num) _

/-- The fold computing each numerator equals the closed form of the spec:
product of the first `i` dissociation constants times
`hydronium_concentration ^ (n - i)`. -/
lemma numerator_eq_prod (a : Acid) (i : ℕ) (x : ℝ) :
    a.numerator i x =
      (a.Ka.take i).prod * hydronium_concentration x ^ (a.pKa.length - i) := by
  unfold Acid.numerator
  rw [foldl_mul_eq_prod, mul_comm]

lemma numerator_pos (a : Acid) (i : ℕ) (x : ℝ) : 0 < a.numerator i x := by
  rw [numerator_eq_prod]
  apply mul_pos
  · exact List.prod_pos (fun y hy => Ka_mem_pos a y (List.mem_of_mem_take hy))
  · exact pow_pos (hydronium_pos x) _

lemma numeratorList_length (a : Acid) (x : ℝ) :
    (a.numeratorList x).length = a.pKa.length + 1 := by
  simp [Acid.numeratorList]

lemma mem_numeratorList_pos (a : Acid) (x : ℝ) :
    ∀ y ∈ a.numeratorList x, 0 < y := by
  intro y hy
  simp only [Acid.numeratorList, List.mem_map] at hy
  obtain ⟨i, _, rfl⟩ := hy
  exact numerator_pos a i x

lemma numeratorList_ne_nil (a : Acid) (x : ℝ) : a.numeratorList x ≠ [] := by
  intro h
  have := numeratorList_length a x
  rw [h] at this
  simp at this

lemma numeratorList_sum_pos (a : Acid) (x : ℝ) :
    0 < (a.numeratorList x).sum :=
  List.sum_pos _ (mem_numeratorList_pos a x) (numeratorList_ne_nil a x)

lemma alpha_length (a : Acid) (x : ℝ) :
    (a.alpha x).length = a.pKa.length + 1 := by
  simp [Acid.alpha, numeratorList_length]

lemma sum_map_div (l : List ℝ) (s : ℝ) :
    (l.map (fun y => y / s)).sum = l.sum / s := by
  induction l with
  | nil => simp
  | cons a t ih => simp [ih, add_div]

/-- The alpha fractions sum to exactly 1 at every pH value. -/
lemma alpha_sum_eq_one (a : Acid) (x : ℝ) : (a.alpha x).sum = 1 := by
  unfold Acid.alpha
  rw [sum_map_div, div_self (ne_of_gt (numeratorList_sum_pos a x))]

/-- Every alpha fraction is strictly positive and at most 1. -/
lemma mem_alpha_bounds (a : Acid) (x : ℝ) :
    ∀ v ∈ a.alpha x, 0 < v ∧ v ≤ 1 := by
  intro v hv
  simp only [Acid.alpha, List.mem_map] at hv
  obtain ⟨num, hnum, rfl⟩ := hv
  have hpos := mem_numeratorList_pos a x num hnum
  have hs := numeratorList_sum_pos a x
  refine ⟨div_pos hpos hs, ?_⟩
  rw [div_le_one hs]
  exact List.single_le_sum
    (fun y hy => le_of_lt (mem_numeratorList_pos a x y hy)) num hnum

/-- With an empty pKa list the alpha property returns the single curve `[1]`. -/
lemma alpha_nil (a : Acid) (h : a.pKa = []) (x : ℝ) : a.alpha x = [1] := by
  have hnum : a.numeratorList x = [1] := by
    unfold Acid.numeratorList Acid.numerator Acid.Ka
    rw [h]
    simp
  unfold Acid.alpha
  rw [hnum]
  norm_num

/-- Error kind for the Python `raise ValueError` branches. -/
inductive PyError where
  | valueError
deriving DecidableEq

/-- The constructor `Acid.__init__(pKa, acid_concetration)`: it stores the pKa
values and the concentration and performs no validation whatsoever, so it
always produces a model.  Modelled as a fallible constructor to make the
(absent) failure behaviour statable. -/
def Acid.ofInput (pKa : List ℝ) (Ca : ℝ) : Except PyError Acid :=
  Except.ok { pKa := pKa, Ca := Ca }

/-- The integer charge computed in `formulas`:
`charge = number_of_species - (number_of_species + i - 1)` for the species at
1-indexed position `i`. -/
def chargeVal (ns i : ℕ) : ℤ :=
  (ns : ℤ) - ((ns : ℤ) + (i : ℤ) - 1)

/-- The charge rendering in `formulas`: the empty string for 0, a single
minus sign for -1, and the plain integer string otherwise (the final branch
does nothing, so the integer is rendered by the f-string as its decimal
representation). -/
def chargeString (c : ℤ) : String :=
  if c = 0 then "" else if c = -1 then "-" else toString c

/-- The label built for the species at 1-indexed position `i` out of `ns`
species, before the B → A substitution: the f-string B-then-charge,
HB-then-charge, or H-then-idx-then-B-then-charge according to
`idx = ns - i`. -/
def labelB (ns i : ℕ) : String :=
  let idx := ns - i
  let charge := chargeString (chargeVal ns i)
  if idx = 0 then "B" ++ charge
  else if idx = 1 then "HB" ++ charge
  else "H" ++ toString idx ++ "B" ++ charge

/-- The `labels` list accumulated by the loop
`for i in range(1, number_of_species + 1)` in `formulas`. -/
def labelsB (ns : ℕ) : List String :=
  (List.range ns).map (fun j => labelB ns (j + 1))

/-- The Python call replacing B with A in a formula string, for the
single-character pattern: every occurrence of the character B becomes A. -/
def replaceB (s : String) : String :=
  ⟨s.data.map (fun c => if c = 'B' then 'A' else c)⟩

/-- The species count `number_of_species = len(self.alpha)`; the alpha list
always has length `pKa.length + 1` (lemma `alpha_length`). -/
def Acid.numberOfSpecies (a : Acid) : ℕ :=
  a.pKa.length + 1

/-- The `formulas(output)` method.  The external chempy calls
`Substance.from_formula(f).latex_name` / `.html_name` are external
collaborators of the repository and are passed in as the functions
`nameLatex` / `nameHtml`.  Unrecognized `output` strings hit `raise
ValueError`. -/
def Acid.formulas (a : Acid) (nameLatex nameHtml : String → String)
    (output : String) : Except PyError (List String) :=
  let labels := labelsB a.numberOfSpecies
  if output = "raw" then
    Except.ok (labels.map replaceB)
  else if output = "latex" then
    Except.ok ((labels.map nameLatex).map replaceB)
  else if output = "html" then
    Except.ok ((labels.map nameHtml).map replaceB)
  else
    Except.error PyError.valueError

lemma labelsB_length (ns : ℕ) : (labelsB ns).length = ns := by
  simp [labelsB]

lemma zero_mem_pH_grid : (0 : ℝ) ∈ pH_grid := by
  have h : ((0 : ℕ) : ℝ) / 10 ∈ (List.range 141).map (fun i : ℕ => (i : ℝ) / 10) :=
    List.mem_map_of_mem _ (List.mem_range.mpr (by norm_num))
  have e : ((0 : ℕ) : ℝ) / 10 = 0 := by norm_num
  rw [e] at h
  exact h

lemma getD_mem {l : List ℝ} {k : ℕ} (h : k < l.length) : l.getD k 0 ∈ l := by
  simp only [List.getD_eq_getElem?_getD, List.getElem?_eq_getElem h, Option.getD_some]
  exact List.getElem_mem h

/-- For a monoprotic acid at the pH value equal to its pKa, both numerators
coincide with the hydronium concentration, so both fractions are 1/2. -/
lemma alpha_monoprotic (p Ca : ℝ) :
    Acid.alpha (Acid.mk [p] Ca) p = [1 / 2, 1 / 2] := by
  have h := hydronium_pos p
  have hnum : (Acid.mk [p] Ca).numeratorList p =
      [hydronium_concentration p, hydronium_concentration p] := by
    unfold Acid.numeratorList Acid.numerator Acid.Ka hydronium_concentration
    norm_num [List.range_succ]
  unfold Acid.alpha
  rw [hnum]
  have hs : hydronium_concentration p + (hydronium_concentration p + 0) ≠ 0 := by
    positivity
  norm_num
  rw [div_eq_iff (by linarith : hydronium_concentration p + hydronium_concentration p ≠ 0)]
  ring

/-- C2 (counterexample): constructing an acid with the non-positive total
concentration -1 does not fail; it returns a model, so the claimed
InvalidInputError is never raised. -/
theorem C2_counterexample :
    Acid.ofInput [4.76] (-1) = Except.ok (Acid.mk [4.76] (-1)) := rfl

/-- C2 (amended): the constructor performs no validation of the total
concentration: for every pKa sequence and every concentration value,
including non-positive ones, construction succeeds and returns the model
holding exactly those fields. -/
theorem C2_no_validation (pKa : List ℝ) (Ca : ℝ) (hCa : Ca ≤ 0) :
    Acid.ofInput pKa Ca = Except.ok (Acid.mk pKa Ca) := rfl

/-- C2 (witness): the amended theorem applied at the concrete non-positive
concentration -1. -/
theorem C2_no_validation_witness :
    (-1 : ℝ) ≤ 0 ∧ Acid.ofInput [4.76] (-1) = Except.ok (Acid.mk [4.76] (-1)) :=
  ⟨by norm_num, C2_no_validation [4.76] (-1) (by norm_num)⟩

/-- C4 (counterexample): for a diprotic acid the raw labels are not
the claimed H2A, HA-, A2-: the doubly negative species is rendered A-2,
because the charge -2 is passed through unformatted as its decimal string. -/
theorem C4_counterexample :
    Acid.formulas (Acid.mk [2.12, 7.21] 0.1) id id "raw" ≠
      Except.ok ["H2A", "HA-", "A2-"] := by
  intro hcontra
  have h2 : Acid.formulas (Acid.mk [2.12, 7.21] 0.1) id id "raw" =
      Except.ok ["H2A", "HA-", "A-2"] := rfl
  rw [h2] at hcontra
  exact absurd (Except.ok.inj hcontra) (by decide)

/-- C4 (amended): for every acid with exactly 2 pKa values, the raw
representation of the species labels is exactly the ordered list
H2A, HA-, A-2 (index 0 = most protonated; the -2 charge is rendered as the
unformatted decimal string -2). -/
theorem C4_diprotic_raw_labels (a : Acid) (h : a.pKa.length = 2)
    (nameLatex nameHtml : String → String) :
    a.formulas nameLatex nameHtml "raw" = Except.ok ["H2A", "HA-", "A-2"] := by
  unfold Acid.formulas Acid.numberOfSpecies
  rw [h]
  rfl

/-- C4 (witness): the amended theorem applied to a concrete diprotic acid. -/
theorem C4_diprotic_raw_labels_witness :
    Acid.formulas (Acid.mk [2.12, 7.21] 0.1) id id "raw" =
      Except.ok ["H2A", "HA-", "A-2"] :=
  C4_diprotic_raw_labels (Acid.mk [2.12, 7.21] 0.1) rfl id id

/-- C5 (counterexample): the claimed formula charge = (n+1) - (n + i - 1)
is wrong: for n = 2 dissociation steps (3 species) at position i = 1 it
gives 1, while the code assigns charge 0 to the fully protonated species. -/
theorem C5_counterexample :
    chargeVal (2 + 1) 1 ≠ (2 + 1 : ℤ) - (2 + 1 - 1) := by decide

/-- C5 (amended): for every species count n+1, the charge assigned by the
labeling code to the species at 1-indexed position i is
(n+1) - ((n+1) + i - 1) = 1 - i: the fully protonated species (i = 1) has
charge 0, the charge decreases by exactly 1 per subsequent species, and it
reaches -n at i = n+1. -/
theorem C5_charge_formula (n i : ℕ) (h1 : 1 ≤ i) (h2 : i ≤ n + 1) :
    chargeVal (n + 1) i = 1 - (i : ℤ) ∧
    chargeVal (n + 1) 1 = 0 ∧
    chargeVal (n + 1) (i + 1) = chargeVal (n + 1) i - 1 ∧
    chargeVal (n + 1) (n + 1) = -(n : ℤ) := by
  unfold chargeVal
  refine ⟨by push_cast; ring, by push_cast; ring, by push_cast; ring, by push_cast; ring⟩

/-- C5 (witness): the amended theorem applied at n = 2, i = 1. -/
theorem C5_charge_formula_witness :
    chargeVal (2 + 1) 1 = 1 - ((1 : ℕ) : ℤ) ∧
    chargeVal (2 + 1) 1 = 0 ∧
    chargeVal (2 + 1) (1 + 1) = chargeVal (2 + 1) 1 - 1 ∧
    chargeVal (2 + 1) (2 + 1) = -((2 : ℕ) : ℤ) :=
  C5_charge_formula 2 1 (by norm_num) (by norm_num)

/-- C9: requesting the species labels with an output string other than the
recognized raw, latex and html fails with the ValueError of the source,
while each recognized representation returns a list of n+1 strings. -/
theorem C9_formulas_dispatch (a : Acid) (nameLatex nameHtml : String → String)
    (out : String) :
    (out ∉ (["raw", "latex", "html"] : List String) →
      a.formulas nameLatex nameHtml out = Except.error PyError.valueError) ∧
    (out ∈ (["raw", "latex", "html"] : List String) →
      ∃ ls, a.formulas nameLatex nameHtml out = Except.ok ls ∧
        ls.length = a.pKa.length + 1) := by
  constructor
  · intro hout
    simp only [List.mem_cons, List.not_mem_nil, or_false] at hout
    push_neg at hout
    obtain ⟨h1, h2, h3⟩ := hout
    unfold Acid.formulas
    rw [if_neg h1, if_neg h2, if_neg h3]
  · intro hout
    simp only [List.mem_cons, List.not_mem_nil, or_false] at hout
    unfold Acid.formulas
    rcases hout with rfl | rfl | rfl
    · exact ⟨(labelsB a.numberOfSpecies).map replaceB, by rfl,
        by simp [labelsB_length, Acid.numberOfSpecies]⟩
    · exact ⟨((labelsB a.numberOfSpecies).map nameLatex).map replaceB, by rfl,
        by simp [labelsB_length, Acid.numberOfSpecies]⟩
    · exact ⟨((labelsB a.numberOfSpecies).map nameHtml).map replaceB, by rfl,
        by simp [labelsB_length, Acid.numberOfSpecies]⟩

/-- C9 (witness): an unrecognized output string on a concrete acid yields
the error. -/
theorem C9_formulas_dispatch_witness :
    Acid.formulas (Acid.mk [4.76] 0.05) id id "bogus" =
      Except.error PyError.valueError :=
  (C9_formulas_dispatch (Acid.mk [4.76] 0.05) id id "bogus").1 (by decide)

/-- C1: at every pH point of the grid, the alpha operation computes for each
species index k the unnormalized weight (product of the first k dissociation
constants) times hydronium to the power n-k, and returns that weight divided
by the sum of all n+1 such weights. -/
theorem C1_alpha_formula (a : Acid) (x : ℝ) (hx : x ∈ pH_grid) (k : ℕ)
    (hk : k ≤ a.pKa.length) :
    (a.alpha x)[k]? = some
      (((a.Ka.take k).prod * hydronium_concentration x ^ (a.pKa.length - k)) /
        ((List.range (a.pKa.length + 1)).map
          (fun j => (a.Ka.take j).prod *
            hydronium_concentration x ^ (a.pKa.length - j))).sum) := by
  have hmap : a.numeratorList x = (List.range (a.pKa.length + 1)).map
      (fun j => (a.Ka.take j).prod *
        hydronium_concentration x ^ (a.pKa.length - j)) := by
    unfold Acid.numeratorList
    exact List.map_congr_left (fun i _ => numerator_eq_prod a i x)
  have hk2 : k < a.pKa.length + 1 := Nat.lt_succ_of_le hk
  unfold Acid.alpha
  rw [List.getElem?_map, hmap, List.getElem?_map, List.getElem?_range hk2]
  simp

/-- C1 (witness): the formula theorem applied to the trivial acid at grid
point 0, species index 0. -/
theorem C1_alpha_formula_witness :
    (Acid.alpha (Acid.mk [] 1) 0)[0]? = some
      ((((Acid.mk [] 1).Ka.take 0).prod *
          hydronium_concentration 0 ^ ((Acid.mk [] 1).pKa.length - 0)) /
        ((List.range ((Acid.mk [] 1).pKa.length + 1)).map
          (fun j => ((Acid.mk [] 1).Ka.take j).prod *
            hydronium_concentration 0 ^ ((Acid.mk [] 1).pKa.length - j))).sum) :=
  C1_alpha_formula (Acid.mk [] 1) 0 zero_mem_pH_grid 0 (Nat.zero_le _)

/-- C3: for every acid with positive total concentration and every pH point
of the grid, the alpha fractions sum to 1 within absolute tolerance 1e-9
(in the exact real model they sum to exactly 1). -/
theorem C3_alpha_sum_tolerance (a : Acid) (hCa : 0 < a.Ca) (x : ℝ)
    (hx : x ∈ pH_grid) :
    |(a.alpha x).sum - 1| ≤ 1e-9 := by
  rw [alpha_sum_eq_one]
  norm_num

/-- C3 (witness): the sum bound at a concrete monoprotic acid and the grid
point 0. -/
theorem C3_alpha_sum_tolerance_witness :
    |(Acid.alpha (Acid.mk [4.76] 0.05) 0).sum - 1| ≤ 1e-9 :=
  C3_alpha_sum_tolerance (Acid.mk [4.76] 0.05)
    (show (0 : ℝ) < 0.05 by norm_num) 0 zero_mem_pH_grid

/-- C6: an acid constructed with an empty pKa sequence yields exactly one
species curve with value 1 at every pH point of the grid. -/
theorem C6_trivial_acid (a : Acid) (h : a.pKa = []) (x : ℝ)
    (hx : x ∈ pH_grid) :
    a.alpha x = [1] :=
  alpha_nil a h x

/-- C6 (witness): the trivial acid at grid point 0. -/
theorem C6_trivial_acid_witness :
    Acid.alpha (Acid.mk [] 0.1) 0 = [1] :=
  C6_trivial_acid (Acid.mk [] 0.1) rfl 0 zero_mem_pH_grid

/-- C7: for every acid, every in-range species index and every pH point of
the grid, the alpha fraction lies between 0 and 1. -/
theorem C7_alpha_in_unit_interval (a : Acid) (x : ℝ) (hx : x ∈ pH_grid)
    (k : ℕ) (hk : k < (a.alpha x).length) :
    0 ≤ (a.alpha x).getD k 0 ∧ (a.alpha x).getD k 0 ≤ 1 := by
  have hb := mem_alpha_bounds a x _ (getD_mem hk)
  exact ⟨le_of_lt hb.1, hb.2⟩

/-- C7 (witness): the bounds at a concrete acid, grid point 0, index 0. -/
theorem C7_alpha_in_unit_interval_witness :
    0 ≤ (Acid.alpha (Acid.mk [] 0.05) 0).getD 0 0 ∧
    (Acid.alpha (Acid.mk [] 0.05) 0).getD 0 0 ≤ 1 :=
  C7_alpha_in_unit_interval (Acid.mk [] 0.05) 0 zero_mem_pH_grid 0
    (by rw [alpha_length]; norm_num)

/-- C8: for the monoprotic acid with pKa 4.76 and total concentration 0.05,
at pH 4.76 (where the dissociation constant equals the hydronium
concentration) both alpha fractions equal 0.5 within 1e-6 (exactly 1/2 in
the real model). -/
theorem C8_monoprotic_equal_half :
    |(Acid.alpha (Acid.mk [4.76] 0.05) 4.76).getD 0 0 - 0.5| ≤ 1e-6 ∧
    |(Acid.alpha (Acid.mk [4.76] 0.05) 4.76).getD 1 0 - 0.5| ≤ 1e-6 := by
  rw [alpha_monoprotic]
  norm_num

/-- C10 (counterexample): for the acid with no pKa values and the positive
concentration 0.1, the single alpha fraction equals 1, so the claim that
every alpha fraction is strictly below 1 fails. -/
theorem C10_counterexample :
    (0 : ℝ) < (Acid.mk [] 0.1).Ca ∧
    ¬ ((Acid.alpha (Acid.mk [] 0.1) 0).getD 0 0 < 1) := by
  constructor
  · show (0 : ℝ) < 0.1
    norm_num
  · rw [alpha_nil (Acid.mk [] 0.1) rfl 0]
    norm_num

/-- C10 (amended): for every acid with positive total concentration, every
pH point of the grid and every in-range species index, the numerator is
strictly positive, the alpha fraction lies in the half-open interval from 0
exclusive to 1 inclusive, and the argument of the log10 in the
log-concentration computation is strictly positive, so the undefined
logarithm is never hit. -/
theorem C10_positivity_safety (a : Acid) (hCa : 0 < a.Ca) (x : ℝ)
    (hx : x ∈ pH_grid) (k : ℕ) (hk : k < a.pKa.length + 1) :
    0 < (a.numeratorList x).getD k 0 ∧
    (0 < (a.alpha x).getD k 0 ∧ (a.alpha x).getD k 0 ≤ 1) ∧
    0 < (a.alpha x).getD k 0 * a.Ca := by
  have hk1 : k < (a.numeratorList x).length := by
    rw [numeratorList_length]; exact hk
  have hk2 : k < (a.alpha x).length := by
    rw [alpha_length]; exact hk
  have h1 := mem_numeratorList_pos a x _ (getD_mem hk1)
  have h2 := mem_alpha_bounds a x _ (getD_mem hk2)
  exact ⟨h1, h2, mul_pos h2.1 hCa⟩

/-- C10 (witness): the amended safety statement at a concrete monoprotic
acid, grid point 0, species index 0. -/
theorem C10_positivity_safety_witness :
    0 < (Acid.numeratorList (Acid.mk [4.76] 0.05) 0).getD 0 0 ∧
    (0 < (Acid.alpha (Acid.mk [4.76] 0.05) 0).getD 0 0 ∧
      (Acid.alpha (Acid.mk [4.76] 0.05) 0).getD 0 0 ≤ 1) ∧
    0 < (Acid.alpha (Acid.mk [4.76] 0.05) 0).getD 0 0 *
      (Acid.mk [4.76] 0.05).Ca :=
  C10_positivity_safety (Acid.mk [4.76] 0.05)
    (show (0 : ℝ) < 0.05 by norm_num) 0 zero_mem_pH_grid 0 (Nat.succ_pos _)
